import Mathlib

set_option maxHeartbeats 1000000

/-- Python-like runtime values as they occur in the host request body and as
produced by JSON decoding in src/flowise.py.  Dicts are association lists;
key lookup is last-wins, matching Python dict semantics (unique keys) and
Python's JSON object decoding (later duplicate keys win).  Floats keep their
raw lexeme (no float arithmetic is performed anywhere in the modelled code).
Bytes values never occur in the modelled fragment (the `isinstance(x, bytes)`
branches are dead in this model and are noted at their use sites). -/
inductive PyVal where
  | vNone
  | vBool (b : Bool)
  | vInt (n : Int)
  | vFloat (raw : String)
  | vStr (s : String)
  | vList (items : List PyVal)
  | vDict (entries : List (String × PyVal))

/-- Association-list dictionary carrying Python values. -/
abbrev PyDict := List (String × PyVal)

/-- Last-wins key lookup on an association list (Python `d.get(k)` /
`d[k]`; with JSON-decoded dicts, later duplicate keys shadow earlier ones). -/
def dGet {α : Type} : List (String × α) → String → Option α
  | [], _ => none
  | (k, v) :: rest, key =>
    match dGet rest key with
    | some w => some w
    | none => if k = key then some v else none

/-- Python `d.get(k, default)`. -/
def dGetD {α : Type} (d : List (String × α)) (key : String) (dflt : α) : α :=
  (dGet d key).getD dflt

/-- Python `d[k] = v`.  With last-wins lookup, appending the new binding is
observationally equivalent to in-place replacement for every lookup. -/
def dSet {α : Type} (d : List (String × α)) (key : String) (v : α) : List (String × α) :=
  d ++ [(key, v)]

/-- Mantissa-digit test used for Python float truthiness: a float literal is
falsy exactly when every digit before the exponent marker is zero. -/
def floatTruthy (raw : String) : Bool :=
  (raw.data.takeWhile (fun c => !(c == 'e' || c == 'E'))).any
    (fun c => c.isDigit && c != '0')

/-- Python truthiness (`bool(x)`) for the modelled values. -/
def pyTruthy : PyVal → Bool
  | .vNone => false
  | .vBool b => b
  | .vInt n => n != 0
  | .vFloat raw => floatTruthy raw
  | .vStr s => s != ""
  | .vList items => !items.isEmpty
  | .vDict entries => !entries.isEmpty

/-- Python `a or b` on values: `a` when truthy, else `b`. -/
def pyOr (a b : PyVal) : PyVal :=
  if pyTruthy a then a else b

mutual

/-- Python `repr` for the modelled values (string quoting simplified: inner
quotes are not escaped — no modelled claim depends on container rendering). -/
def pyRepr : PyVal → String
  | .vNone => "None"
  | .vBool true => "True"
  | .vBool false => "False"
  | .vInt n => toString n
  | .vFloat raw => raw
  | .vStr s => "\x27" ++ s ++ "\x27"
  | .vList items => "[" ++ String.intercalate ", " (pyReprList items) ++ "]"
  | .vDict entries => "\x7b" ++ String.intercalate ", " (pyReprPairs entries) ++ "\x7d"

/-- `repr` of each element of a Python list. -/
def pyReprList : List PyVal → List String
  | [] => []
  | v :: vs => pyRepr v :: pyReprList vs

/-- `repr` of each `key: value` entry of a Python dict. -/
def pyReprPairs : List (String × PyVal) → List String
  | [] => []
  | (k, v) :: ps => ("\x27" ++ k ++ "\x27: " ++ pyRepr v) :: pyReprPairs ps

end

/-- Python `str(x)`: identity on strings, `repr`-like otherwise. -/
def pyStr : PyVal → String
  | .vStr s => s
  | v => pyRepr v

/-- Characters stripped by Python `str.strip()` (the ASCII whitespace set;
the additional Unicode whitespace Python strips never occurs in the claims). -/
def pyWs (c : Char) : Bool :=
  c == ' ' || c == '\t' || c == '\n' || c == '\r' || c == '\x0b' || c == '\x0c'

/-- Python `str.strip()` on a character list. -/
def stripChars (cs : List Char) : List Char :=
  ((cs.dropWhile pyWs).reverse.dropWhile pyWs).reverse

/-- Python `str.strip()`. -/
def pyStrip (s : String) : String :=
  ⟨stripChars s.data⟩

/-- Character-list version of Python `str.startswith`. -/
def listPre : List Char → List Char → Bool
  | [], _ => true
  | _ :: _, [] => false
  | p :: ps, c :: cs => p == c && listPre ps cs

/-- Python `s.startswith(pre)`. -/
def strHasPre (pre s : String) : Bool :=
  listPre pre.data s.data

/-- Python `s[n:]` (character slicing). -/
def strDropChars (s : String) (n : Nat) : String :=
  ⟨s.data.drop n⟩

/-- Everything after the first occurrence of `ch` (Python `s.split(ch, 1)[1]`
when `ch` occurs in `s`). -/
def afterFirst (ch : Char) (cs : List Char) : List Char :=
  (cs.dropWhile (fun c => c != ch)).drop 1

/-- Everything before the first occurrence of `ch`
(Python `s.split(ch, 1)[0]`). -/
def beforeFirst (ch : Char) (cs : List Char) : List Char :=
  cs.takeWhile (fun c => c != ch)

/-- Concatenation of the images of `f` (loop-and-append translation helper). -/
def listFlat {α β : Type} (f : α → List β) : List α → List β
  | [] => []
  | a :: rest => f a ++ listFlat f rest

/-- JSON whitespace accepted by Python's `json.loads`. -/
def jSkipWs : List Char → List Char
  | c :: cs => if c == ' ' || c == '\t' || c == '\n' || c == '\r' then jSkipWs cs else c :: cs
  | [] => []

/-- Hex digit value for `\uXXXX` escapes. -/
def hexVal (c : Char) : Option Nat :=
  if '0' ≤ c ∧ c ≤ '9' then some (c.toNat - '0'.toNat)
  else if 'a' ≤ c ∧ c ≤ 'f' then some (c.toNat - 'a'.toNat + 10)
  else if 'A' ≤ c ∧ c ≤ 'F' then some (c.toNat - 'A'.toNat + 10)
  else none

/-- JSON string body scanner (the opening quote is already consumed):
returns the decoded characters and the input following the closing quote.
Surrogate-pair recombination is not modelled (immaterial to all claims). -/
def jStrBody : Nat → List Char → Option (List Char × List Char)
  | 0, _ => none
  | _, [] => none
  | fuel + 1, c :: cs =>
    if c == '"' then some ([], cs)
    else if c == '\\' then
      match cs with
      | [] => none
      | e :: cs2 =>
        if e == 'u' then
          match cs2 with
          | h1 :: h2 :: h3 :: h4 :: cs3 =>
            match hexVal h1, hexVal h2, hexVal h3, hexVal h4 with
            | some a, some b, some c3, some d =>
              match jStrBody fuel cs3 with
              | some (body, rest) =>
                some (Char.ofNat (((a * 16 + b) * 16 + c3) * 16 + d) :: body, rest)
              | none => none
            | _, _, _, _ => none
          | _ => none
        else
          let decoded : Option Char :=
            if e == '"' then some '"'
            else if e == '\\' then some '\\'
            else if e == '/' then some '/'
            else if e == 'b' then some '\x08'
            else if e == 'f' then some '\x0c'
            else if e == 'n' then some '\n'
            else if e == 'r' then some '\r'
            else if e == 't' then some '\t'
            else none
          match decoded with
          | some d =>
            match jStrBody fuel cs2 with
            | some (body, rest) => some (d :: body, rest)
            | none => none
          | none => none
    else
      match jStrBody fuel cs with
      | some (body, rest) => some (c :: body, rest)
      | none => none

/-- JSON number lexeme scanner: takes the maximal number-shaped span and
classifies it as integer or float, as `json.loads` does. -/
def jNum (cs : List Char) : Option (PyVal × List Char) :=
  let (sign, cs1) : Bool × List Char :=
    match cs with
    | '-' :: rest => (true, rest)
    | rest => (false, rest)
  let intPart := cs1.takeWhile (fun c => c.isDigit)
  let cs2 := cs1.dropWhile (fun c => c.isDigit)
  if intPart.isEmpty then none
  else
    let (fracPart, cs3) : List Char × List Char :=
      match cs2 with
      | '.' :: rest =>
        ('.' :: rest.takeWhile (fun c => c.isDigit), rest.dropWhile (fun c => c.isDigit))
      | rest => ([], rest)
    let (expPart, cs4) : List Char × List Char :=
      match cs3 with
      | e :: rest =>
        if e == 'e' || e == 'E' then
          let (es, rest2) : List Char × List Char :=
            match rest with
            | s :: r2 => if s == '+' || s == '-' then ([e, s], r2) else ([e], rest)
            | [] => ([e], rest)
          (es ++ rest2.takeWhile (fun c => c.isDigit), rest2.dropWhile (fun c => c.isDigit))
        else ([], cs3)
      | [] => ([], cs3)
    let lexeme := (if sign then ['-'] else []) ++ intPart ++ fracPart ++ expPart
    if fracPart.isEmpty ∧ expPart.isEmpty then
      let mag : Int := Int.ofNat (String.toNat! ⟨intPart⟩)
      some (.vInt (if sign then -mag else mag), cs2)
    else
      some (.vFloat ⟨lexeme⟩, cs4)

mutual

/-- Recursive-descent JSON value parser (model of Python's `json.loads`
grammar), fuel-indexed for termination. -/
def jVal : Nat → List Char → Option (PyVal × List Char)
  | 0, _ => none
  | fuel + 1, cs0 =>
    match jSkipWs cs0 with
    | [] => none
    | c :: cs =>
      if c == '"' then
        match jStrBody (fuel + 1) cs with
        | some (body, rest) => some (.vStr ⟨body⟩, rest)
        | none => none
      else if c == '\x7b' then
        match jSkipWs cs with
        | '\x7d' :: rest => some (.vDict [], rest)
        | other => jMembers fuel other []
      else if c == '[' then
        match jSkipWs cs with
        | ']' :: rest => some (.vList [], rest)
        | other => jItems fuel other []
      else if c == 't' then
        match cs with
        | 'r' :: 'u' :: 'e' :: rest => some (.vBool true, rest)
        | _ => none
      else if c == 'f' then
        match cs with
        | 'a' :: 'l' :: 's' :: 'e' :: rest => some (.vBool false, rest)
        | _ => none
      else if c == 'n' then
        match cs with
        | 'u' :: 'l' :: 'l' :: rest => some (.vNone, rest)
        | _ => none
      else if c == '-' || c.isDigit then jNum (c :: cs)
      else none

/-- JSON object member list parser (positioned at a key). -/
def jMembers : Nat → List Char → List (String × PyVal) → Option (PyVal × List Char)
  | 0, _, _ => none
  | fuel + 1, cs0, acc =>
    match jSkipWs cs0 with
    | '"' :: cs =>
      match jStrBody (fuel + 1) cs with
      | some (keyChars, rest1) =>
        match jSkipWs rest1 with
        | ':' :: rest2 =>
          match jVal fuel rest2 with
          | some (v, rest3) =>
            let acc2 := acc ++ [(⟨keyChars⟩, v)]
            match jSkipWs rest3 with
            | ',' :: rest4 => jMembers fuel rest4 acc2
            | '\x7d' :: rest4 => some (.vDict acc2, rest4)
            | _ => none
          | none => none
        | _ => none
      | none => none
    | _ => none

/-- JSON array item list parser (positioned at a value). -/
def jItems : Nat → List Char → List PyVal → Option (PyVal × List Char)
  | 0, _, _ => none
  | fuel + 1, cs0, acc =>
    match jVal fuel cs0 with
    | some (v, rest1) =>
      let acc2 := acc ++ [v]
      match jSkipWs rest1 with
      | ',' :: rest2 => jItems fuel rest2 acc2
      | ']' :: rest2 => some (.vList acc2, rest2)
      | _ => none
    | none => none

end

/-- Model of Python `json.loads`: parse one JSON value and require only
trailing whitespace after it; `none` models `json.JSONDecodeError`. -/
def jparse (s : String) : Option PyVal :=
  match jVal (2 * s.data.length + 4) s.data with
  | some (v, rest) => if (jSkipWs rest).isEmpty then some v else none
  | none => none

/-- The subset of `Pipe.Valves` (src/flowise.py lines 22-95) consumed by the
request-building and decoding logic under verification.  Environment-variable
loading of the defaults is out of scope (spec section 6, configuration
surface handled by an excluded collaborator). -/
structure Valves where
  flowise_url : String
  flowise_api_key : String
  allow_remote_file_urls : Bool
  default_upload_type : String
  force_override_history : Bool
  history_limit : Int

/-- A concrete valve assignment matching the documented environment defaults,
with a configured URL and key so that configuration validation passes. -/
def testValves : Valves :=
  { flowise_url := "http://flowise.local"
    flowise_api_key := "test-key"
    allow_remote_file_urls := false
    default_upload_type := "file:full"
    force_override_history := true
    history_limit := 10 }

/-- Python `x == "lit"` for a value against a string literal: only a string
value can compare equal to a string. -/
def pvEqStr : PyVal → String → Bool
  | .vStr s, t => s == t
  | _, _ => false

/-- One structured content item of `Pipe._process_message_content`
(src/flowise.py lines 250-258): dict items tagged `text` contribute their
text value, dict items tagged `image_url` contribute the fixed placeholder,
any other dict item contributes nothing, and non-dict items contribute their
`str(...)` rendering. -/
def procItem : PyVal → List PyVal
  | .vDict d =>
    if pvEqStr (dGetD d "type" .vNone) "text" then [dGetD d "text" (.vStr "")]
    else if pvEqStr (dGetD d "type" .vNone) "image_url" then [.vStr "[Image content]"]
    else []
  | item => [.vStr (pyStr item)]

/-- `Pipe._process_message_content` (src/flowise.py lines 244-262): flatten a
message's content to one string; list content is processed item by item and
the non-empty string forms are joined with a blank line; non-list content is
`str(content) if content else ""`. -/
def processMessageContent (message : PyDict) : String :=
  let content := dGetD message "content" (.vStr "")
  match content with
  | .vList items =>
    let processed := listFlat procItem items
    String.intercalate "\n\n" ((processed.map pyStr).filter (fun s => s != ""))
  | c => if pyTruthy c then pyStr c else ""

/-- `Pipe._build_history_payload` (src/flowise.py lines 275-290): keep only
messages with non-blank flattened content and role `user`/`assistant`, and
map them to Flowise turns (`userMessage`/`apiMessage`).  A non-dict message
would raise in Python (caught by the caller's catch-all); such messages are
modelled as skipped and the theorems assume dict-shaped messages. -/
def buildHistoryPayload : List PyVal → List PyDict
  | [] => []
  | msg :: rest =>
    let tail := buildHistoryPayload rest
    match msg with
    | .vDict md =>
      let role := dGetD md "role" (.vStr "user")
      let content := pyStrip (processMessageContent md)
      if content = "" then tail
      else
        match role with
        | .vStr "user" => [("role", .vStr "userMessage"), ("content", .vStr content)] :: tail
        | .vStr "assistant" => [("role", .vStr "apiMessage"), ("content", .vStr content)] :: tail
        | _ => tail
    | _ => tail

/-- Role filter of `Pipe._trim_messages_for_history` (src/flowise.py line
295): `m.get("role") in {"user", "assistant"}`. -/
def roleIsUserOrAssistant : PyVal → Bool
  | .vDict md =>
    match dGet md "role" with
    | some (.vStr "user") => true
    | some (.vStr "assistant") => true
    | _ => false
  | _ => false

/-- `Pipe._trim_messages_for_history` (src/flowise.py lines 292-299): empty
for a non-positive limit or no messages; otherwise the last `limit` of the
user/assistant-role messages (Python `filtered[-limit:]`). -/
def trimMessagesForHistory (messages : List PyVal) (limit : Int) : List PyVal :=
  if limit ≤ 0 then []
  else
    match messages with
    | [] => []
    | _ =>
      let filtered := messages.filter roleIsUserOrAssistant
      match filtered with
      | [] => []
      | _ => filtered.drop (filtered.length - limit.toNat)

/-- The `data` value a candidate offers, in the priority order of
`normalize_upload` (src/flowise.py line 307):
`u.get("data") or u.get("url") or u.get("data_url") or u.get("base64") or
u.get("b64")`. -/
def uploadDataChain (d : PyDict) : PyVal :=
  pyOr (dGetD d "data" .vNone)
    (pyOr (dGetD d "url" .vNone)
      (pyOr (dGetD d "data_url" .vNone)
        (pyOr (dGetD d "base64" .vNone) (dGetD d "b64" .vNone))))

/-- `normalize_upload` (src/flowise.py lines 304-338), the closure inside
`Pipe._extract_uploads`: reject non-dict candidates and non-string data
values; reject remote http(s) URLs unless the valve allows them; wrap an
opaque string into a data URI when a slash-containing string MIME hint is
present; resolve the `type` tag (`file` expands to the configured default,
`url` is honored only for allowed remote URLs); carry over `name` and the
first truthy of `mime`/`mimetype`. -/
def normalizeUpload (v : Valves) (u : PyVal) : Option PyDict :=
  match u with
  | .vDict d =>
    match uploadDataChain d with
    | .vStr s =>
      let isDataUri := strHasPre "data:" s
      let isHttpUri := strHasPre "http://" s || strHasPre "https://" s
      if !isDataUri && isHttpUri && !v.allow_remote_file_urls then none
      else
        let dataVal2 : String :=
          if !isDataUri && !isHttpUri then
            match pyOr (dGetD d "mime" .vNone) (dGetD d "mimetype" .vNone) with
            | .vStr mh =>
              if mh.data.contains '/' then "data:" ++ mh ++ ";base64," ++ s else s
            | _ => s
          else s
        let typeVal0 := pyOr (dGetD d "type" .vNone) (.vStr v.default_upload_type)
        let typeVal : PyVal :=
          match typeVal0 with
          | .vStr "file" => .vStr v.default_upload_type
          | .vStr "url" =>
            if isHttpUri then
              (if v.allow_remote_file_urls then .vStr "url" else .vStr v.default_upload_type)
            else .vStr "url"
          | tv => tv
        let result0 : PyDict := [("data", .vStr dataVal2), ("type", typeVal)]
        let result1 :=
          if pyTruthy (dGetD d "name" .vNone) then dSet result0 "name" (dGetD d "name" .vNone)
          else result0
        let result2 :=
          if pyTruthy (pyOr (dGetD d "mime" .vNone) (dGetD d "mimetype" .vNone)) then
            dSet result1 "mime" (pyOr (dGetD d "mime" .vNone) (dGetD d "mimetype" .vNone))
          else result1
        some result2
    | _ => none
  | _ => none

/-- Python `if normalized: uploads.append(normalized)` (src/flowise.py lines
343-345): a `None` result or an empty (falsy) dict is not appended. -/
def emitNormalized : Option PyDict → List PyDict
  | some r => if r.isEmpty then [] else [r]
  | none => []

/-- The `image_url` inline-content branch of `Pipe._extract_uploads`
(src/flowise.py lines 363-383): unwrap the URL (a dict's `url` entry or the
bare value), prefer the `url` type tag for http(s) URLs, normalize the fresh
candidate, then default the name to `image` and infer `mime` from a data-URI
head when those keys are absent. -/
def imageUrlUploads (v : Valves) (item : PyDict) : List PyDict :=
  let imageUrl := dGetD item "image_url" .vNone
  let urlVal : PyVal :=
    match imageUrl with
    | .vDict iud => dGetD iud "url" .vNone
    | other => other
  match urlVal with
  | .vStr s =>
    let typeChoice : String :=
      if strHasPre "http://" s || strHasPre "https://" s then "url" else v.default_upload_type
    let candidate : PyDict := [("data", .vStr s), ("type", .vStr typeChoice)]
    match normalizeUpload v (.vDict candidate) with
    | some n =>
      let n1 := if (dGet n "name").isSome then n else dSet n "name" (.vStr "image")
      let n2 :=
        if (dGet n1 "mime").isNone && strHasPre "data:" s then
          dSet n1 "mime" (.vStr ⟨beforeFirst ';' (afterFirst ':' s.data)⟩)
        else n1
      if n2.isEmpty then [] else [n2]
    | none => []
  | _ => []

/-- One inline content item of `Pipe._extract_uploads` (src/flowise.py lines
355-383): dict items tagged `file`/`input_file`/`data_url` are normalized
directly; items tagged `image_url` go through the image branch; everything
else contributes nothing. -/
def contentItemUploads (v : Valves) (item : PyVal) : List PyDict :=
  match item with
  | .vDict idict =>
    let itemType := dGetD idict "type" .vNone
    if pvEqStr itemType "file" || pvEqStr itemType "input_file" || pvEqStr itemType "data_url" then
      emitNormalized (normalizeUpload v (.vDict idict))
    else if pvEqStr itemType "image_url" then imageUrlUploads v idict
    else []
  | _ => []

/-- Per-message part of `Pipe._extract_uploads` (src/flowise.py lines
347-383): the message's own `uploads` list, then its inline content items.
A non-dict message would raise in Python (caught by the caller's catch-all)
and is modelled as contributing nothing. -/
def messageUploads (v : Valves) (msg : PyVal) : List PyDict :=
  match msg with
  | .vDict md =>
    let own :=
      match dGet md "uploads" with
      | some (.vList us) => listFlat (fun u => emitNormalized (normalizeUpload v u)) us
      | _ => []
    let inline :=
      match dGet md "content" with
      | some (.vList items) => listFlat (contentItemUploads v) items
      | _ => []
    own ++ inline
  | _ => []

/-- `Pipe._extract_uploads` (src/flowise.py lines 301-385): top-level request
uploads first, then each message's uploads and inline content candidates, in
order, without deduplication. -/
def extractUploads (v : Valves) (body : PyDict) (messages : List PyVal) : List PyDict :=
  let topLevel :=
    match dGet body "uploads" with
    | some (.vList us) => listFlat (fun u => emitNormalized (normalizeUpload v u)) us
    | _ => []
  topLevel ++ listFlat (messageUploads v) messages

/-- One element produced by the streaming handler: either a content value
yielded to the front-end, or a side-channel status notification dispatched
to the injected event emitter (level, description, done flag), modelling the
`asyncio.create_task(self.emit_status(...))` dispatch in
`Pipe._handle_streaming_response`. -/
inductive StreamOut where
  | content (v : PyVal)
  | notify (level : String) (desc : String) (done : Bool)

/-- The membership test `data.get("event") in {"start", "end", "error",
"status"}` (src/flowise.py line 598). -/
def isSideChannelEvent (e : String) : Bool :=
  e == "start" || e == "end" || e == "error" || e == "status"

/-- Processing of one raw SSE line by `Pipe._handle_streaming_response`
(src/flowise.py lines 569-619): strip the line, skip blanks and lines
without the `data:` marker, strip the marker and parse the remainder as
JSON (parse failures are silently skipped), then dispatch: a dict tagged
`token` with truthy data yields that value; a dict tagged
`start`/`end`/`error`/`status` dispatches one side-channel notification when
an emitter is present and the description chain is truthy (severity `error`
only for the `error` tag, done flag only for the `end` tag); a bare JSON
string is yielded directly; anything else is ignored.  The dead
`isinstance(token, bytes)` branch is not modelled (no bytes values). -/
def procLine (hasEmitter : Bool) (rawLine : String) : List StreamOut :=
  let line := pyStrip rawLine
  if line = "" then []
  else if strHasPre "data:" line then
    let jsonData := pyStrip (strDropChars line 5)
    if jsonData = "" then []
    else
      match jparse jsonData with
      | none => []
      | some data =>
        match data with
        | .vDict d =>
          match dGet d "event" with
          | some (.vStr "token") =>
            let token := dGetD d "data" (.vStr "")
            if pyTruthy token then [.content token] else []
          | some (.vStr e) =>
            if isSideChannelEvent e then
              let desc :=
                pyOr (dGetD d "data" .vNone)
                  (pyOr (dGetD d "message" .vNone)
                    (pyOr (dGetD d "text" .vNone) (.vStr "")))
              if hasEmitter && pyTruthy desc then
                [.notify (if e == "error" then "error" else "info") (pyStr desc) (e == "end")]
              else []
            else []
          | _ => []
        | .vStr s => [.content (.vStr s)]
        | _ => []
  else []

/-- `Pipe._handle_streaming_response` (src/flowise.py lines 562-626) on a
finite line source that terminates without a transport error: process each
line in order, then dispatch the final `✅ Response complete` notification
when an emitter is present.  Transport-level read timeouts and other
exceptions (lines 628-642) are out of the shallow embedding's scope. -/
def handleStreamingResponse (hasEmitter : Bool) (lines : List String) : List StreamOut :=
  listFlat (procLine hasEmitter) lines ++
    (if hasEmitter then [.notify "info" "✅ Response complete" true] else [])

/-- The designated-field extraction of the non-streaming branch of
`Pipe.pipe` (src/flowise.py lines 530-538) applied to an already-parsed
response value: a dict containing `text` returns that entry, every other
shape returns the empty string.  The dead `isinstance(result, bytes)` branch
is not modelled (no bytes values). -/
def decodeParsedResponse : PyVal → PyVal
  | .vDict d =>
    match dGet d "text" with
    | some tv => tv
    | none => .vStr ""
  | _ => .vStr ""

/-- The non-streaming decode of `Pipe.pipe` (src/flowise.py lines 521-538):
parse the body as JSON (returning empty text on `json.JSONDecodeError`),
then extract the designated `text` field with no fallback scanning. -/
def decodeNonStreaming (raw : String) : PyVal :=
  match jparse raw with
  | none => .vStr ""
  | some responseData => decodeParsedResponse responseData

/-- Validation error for an empty message list (src/flowise.py line 421). -/
def noMessagesError : String := "❌ No messages found in request"

/-- Validation error for blank flattened content (src/flowise.py line 431). -/
def emptyContentError : String := "❌ Empty message content"

/-- Configuration error (src/flowise.py line 408). -/
def missingConfigError : String :=
  "❌ Missing Flowise configuration. Please check your API URL and key."

/-- The catch-all `❌ Unexpected error: {e}` path (src/flowise.py lines
555-560); the embedding tags the places where the Python code would raise a
`TypeError`/`AttributeError` on malformed inputs, with a modelled reason in
place of Python's exception text. -/
def unexpectedError (reason : String) : String :=
  "❌ Unexpected error: " ++ reason

/-- Endpoint-identifier resolution (src/flowise.py lines 413-417): the part
of the dotted model identifier after the first `.`, or the whole identifier
when it has no dot. -/
def resolveModelId (mi : String) : String :=
  if mi.data.contains '.' then ⟨afterFirst '.' mi.data⟩ else mi

/-- The caller-supplied override block (src/flowise.py lines 441-447): the
`overrideConfig` dict when present, else the `flowise_override` alias dict,
else an empty dict. -/
def userOverrideConfig (body : PyDict) : PyDict :=
  match dGet body "overrideConfig" with
  | some (.vDict oc) => oc
  | _ =>
    match dGet body "flowise_override" with
    | some (.vDict oc) => oc
    | _ => []

/-- The default-injection step (src/flowise.py lines 450-455) applied to the
shallow copy of the caller's override block: inject the default session id
when `sessionId` is missing or falsy, and the valve-driven
`isOverrideHistory` flag when that key is absent. -/
def injectOverrideDefaults (v : Valves) (uoc : PyDict) (defaultSessionId : PyVal) : PyDict :=
  let oc1 :=
    if pyTruthy (dGetD uoc "sessionId" .vNone) then uoc
    else dSet uoc "sessionId" defaultSessionId
  if (dGet oc1 "isOverrideHistory").isSome then oc1
  else dSet oc1 "isOverrideHistory" (.vBool v.force_override_history)

/-- Override-config resolution (src/flowise.py lines 441-455). -/
def resolveOverrideConfig (v : Valves) (body : PyDict) (defaultSessionId : PyVal) : PyDict :=
  injectOverrideDefaults v (userOverrideConfig body) defaultSessionId

/-- Default session id (src/flowise.py line 439):
`__metadata__.get("chat_id", f"session_{int(time.time())}")` when the
metadata dict is truthy, else the synthesized time-based id; `now` stands
for `int(time.time())`. -/
def defaultSessionId (md : Option PyDict) (now : Nat) : PyVal :=
  let synth : PyVal := .vStr ("session_" ++ toString now)
  match md with
  | some m =>
    match m with
    | [] => synth
    | _ => dGetD m "chat_id" synth
  | none => synth

/-- History resolution (src/flowise.py lines 457-467): pass a caller-provided
`history` list through unchanged; otherwise build it from the prior messages
trimmed to the valve limit, or use an empty list when there are none. -/
def resolveHistory (v : Valves) (body : PyDict) (prior : List PyVal) : PyVal :=
  match dGet body "history" with
  | some (.vList h) => .vList h
  | _ =>
    match prior with
    | [] => .vList []
    | _ => .vList ((buildHistoryPayload (trimMessagesForHistory prior v.history_limit)).map .vDict)

/-- The request-building portion of `Pipe.pipe` (src/flowise.py lines
397-503), up to and excluding the HTTP POST: configuration validation, model
id extraction, message validation, question flattening, override-config and
history resolution, upload extraction, and assembly of the outbound
`request_data` dict.  The result is the model id together with the request
dict, or the user-visible error text returned upward (`Pipe.pipe` never
raises; transport and status-emission effects are out of scope).  Inputs on
which the Python code would raise into its catch-all (non-string model,
truthy non-list `messages`, non-dict current message) are mapped to
`unexpectedError` with a modelled reason. -/
def pipeBuild (v : Valves) (body : PyDict) (md : Option PyDict) (now : Nat) :
    Except String (String × PyDict) :=
  if v.flowise_api_key = "" ∨ v.flowise_url = "" then .error missingConfigError
  else
    match dGetD body "model" (.vStr "") with
    | .vStr modelInfo =>
      let modelId := resolveModelId modelInfo
      let messagesVal := dGetD body "messages" (.vList [])
      if !pyTruthy messagesVal then .error noMessagesError
      else
        match messagesVal with
        | .vList msgs =>
          match msgs.getLast? with
          | none => .error noMessagesError
          | some current =>
            let prior := msgs.dropLast
            match current with
            | .vDict cd =>
              let question := processMessageContent cd
              if pyStrip question = "" then .error emptyContentError
              else
                let streamEnabled := dGetD body "stream" (.vBool true)
                let overrideConfig := resolveOverrideConfig v body (defaultSessionId md now)
                let historyPayload := resolveHistory v body prior
                let requestSessionId := dGetD overrideConfig "sessionId" (defaultSessionId md now)
                let requestData : PyDict :=
                  [("question", .vStr question),
                   ("overrideConfig", .vDict overrideConfig),
                   ("streaming", streamEnabled),
                   ("chatId", requestSessionId),
                   ("history", historyPayload)]
                let uploadsPayload := extractUploads v body msgs
                let requestData2 :=
                  match uploadsPayload with
                  | [] => requestData
                  | _ => dSet requestData "uploads" (.vList (uploadsPayload.map .vDict))
                .ok (modelId, requestData2)
            | _ => .error (unexpectedError "current message is not a dict")
        | _ => .error (unexpectedError "messages is not a list")
    | _ => .error (unexpectedError "model identifier is not a string")

/-- The validation-failure outcomes of the request builder (spec section 7,
ValidationError): the empty-messages error or the blank-question error. -/
def isValidationError (r : Except String (String × PyDict)) : Prop :=
  r = .error noMessagesError ∨ r = .error emptyContentError

/-- The content values yielded by a streaming decode, in order. -/
def contentTexts (outs : List StreamOut) : List PyVal :=
  outs.filterMap fun o =>
    match o with
    | .content v => some v
    | _ => none

/-- The number of terminal (done = true) side-channel notifications a
streaming decode dispatches. -/
def terminalNotifyCount (outs : List StreamOut) : Nat :=
  (outs.filter fun o =>
    match o with
    | .notify _ _ true => true
    | _ => false).length

/-- Claim C5's reading of one content part, following the spec's words
(section 4.1): `Text` parts contribute their literal text, and `ImageRef`
parts **as well as unrecognized dict parts** each contribute the fixed
placeholder token; non-dict parts degrade to their string form.  Stated for
comparison with `procItem`, which this development refutes. -/
def claimPartFragment : PyVal → String
  | .vDict d =>
    if pvEqStr (dGetD d "type" .vNone) "text" then pyStr (dGetD d "text" (.vStr ""))
    else "[Image content]"
  | item => pyStr item

/-- Claim C5's normalization of a parts list, following the spec's words:
map each part to its fragment and join the non-empty fragments with a blank
line. -/
def claimNormalizeParts (parts : List PyVal) : String :=
  String.intercalate "\n\n" ((parts.map claimPartFragment).filter (fun s => s != ""))

/-- The amended reading of one content part, changed from
`claimPartFragment` only where the code refutes the claim: an unrecognized
dict part contributes nothing (an empty fragment, dropped by the join)
rather than the placeholder. -/
def amendedPartFragment : PyVal → String
  | .vDict d =>
    if pvEqStr (dGetD d "type" .vNone) "text" then pyStr (dGetD d "text" (.vStr ""))
    else if pvEqStr (dGetD d "type" .vNone) "image_url" then "[Image content]"
    else ""
  | item => pyStr item

/-- The amended normalization of a parts list: join the non-empty amended
fragments with a blank line. -/
def amendedNormalizeParts (parts : List PyVal) : String :=
  String.intercalate "\n\n" ((parts.map amendedPartFragment).filter (fun s => s != ""))

/-- Heap values for the frame-property model of the mutating fragment of
`Pipe.pipe` and `Pipe._extract_uploads`: Python dicts live in a store and
are referred to by address (`hRef`), so that shallow copying and in-place
key assignment are observable.  Python lists are carried by value here: the
modelled code never mutates an input list (it only appends to its own fresh
`uploads` accumulator, which the translation returns functionally). -/
inductive HVal where
  | hNone
  | hBool (b : Bool)
  | hInt (n : Int)
  | hFloat (raw : String)
  | hStr (s : String)
  | hRef (r : Nat)
  | hList (items : List HVal)

/-- A heap-resident Python dict. -/
abbrev HDict := List (String × HVal)

/-- The store of allocated dicts; an address is an index into the list. -/
abbrev Store := List HDict

/-- Dereference an address (addresses produced by the modelled code are
always valid; a dangling address reads as an empty dict). -/
def hRead (st : Store) (r : Nat) : HDict :=
  (st[r]?).getD []

/-- Allocate a fresh dict, returning the extended store and its address. -/
def hAlloc (st : Store) (d : HDict) : Store × Nat :=
  (st ++ [d], st.length)

/-- In-place key assignment `st[r][k] = v`. -/
def hWrite (st : Store) (r : Nat) (k : String) (v : HVal) : Store :=
  st.set r (dSet (hRead st r) k v)

/-- Python truthiness for heap values (a dict reference is truthy when the
referenced dict is non-empty). -/
def hTruthy (st : Store) : HVal → Bool
  | .hNone => false
  | .hBool b => b
  | .hInt n => n != 0
  | .hFloat raw => floatTruthy raw
  | .hStr s => s != ""
  | .hRef r => !(hRead st r).isEmpty
  | .hList items => !items.isEmpty

/-- Python `a or b` on heap values. -/
def hOr (st : Store) (a b : HVal) : HVal :=
  if hTruthy st a then a else b

/-- Heap-level override-config step (src/flowise.py lines 441-455), the
mutating counterpart of `resolveOverrideConfig`: resolve the caller's
override dict (by reference), allocate its shallow copy with `dict(...)`,
then assign `sessionId` and `isOverrideHistory` on the fresh copy only. -/
def overrideStepH (v : Valves) (st : Store) (bodyRef : Nat) (defaultSession : HVal) :
    Store × Nat :=
  let body := hRead st bodyRef
  let userOverrideConfig : HDict :=
    match dGet body "overrideConfig" with
    | some (.hRef r) => hRead st r
    | _ =>
      match dGet body "flowise_override" with
      | some (.hRef r) => hRead st r
      | _ => []
  let p := hAlloc st userOverrideConfig
  let st1 := p.1
  let ocr := p.2
  let st2 :=
    if hTruthy st1 (dGetD (hRead st1 ocr) "sessionId" .hNone) then st1
    else hWrite st1 ocr "sessionId" defaultSession
  let st3 :=
    if (dGet (hRead st2 ocr) "isOverrideHistory").isSome then st2
    else hWrite st2 ocr "isOverrideHistory" (.hBool v.force_override_history)
  (st3, ocr)

/-- Heap-level data-value chain of `normalize_upload` (src/flowise.py line
307). -/
def uploadDataChainH (st : Store) (d : HDict) : HVal :=
  hOr st (dGetD d "data" .hNone)
    (hOr st (dGetD d "url" .hNone)
      (hOr st (dGetD d "data_url" .hNone)
        (hOr st (dGetD d "base64" .hNone) (dGetD d "b64" .hNone))))

/-- Heap-level `normalize_upload` (src/flowise.py lines 304-338): reads the
candidate dict through its reference, allocates the fresh `result` dict, and
performs the conditional `name`/`mime` assignments on that fresh dict only. -/
def normalizeUploadH (v : Valves) (st : Store) (u : HVal) : Store × Option Nat :=
  match u with
  | .hRef r =>
    let d := hRead st r
    match uploadDataChainH st d with
    | .hStr s =>
      let isDataUri := strHasPre "data:" s
      let isHttpUri := strHasPre "http://" s || strHasPre "https://" s
      if !isDataUri && isHttpUri && !v.allow_remote_file_urls then (st, none)
      else
        let dataVal2 : String :=
          if !isDataUri && !isHttpUri then
            match hOr st (dGetD d "mime" .hNone) (dGetD d "mimetype" .hNone) with
            | .hStr mh =>
              if mh.data.contains '/' then "data:" ++ mh ++ ";base64," ++ s else s
            | _ => s
          else s
        let typeVal0 := hOr st (dGetD d "type" .hNone) (.hStr v.default_upload_type)
        let typeVal : HVal :=
          match typeVal0 with
          | .hStr "file" => .hStr v.default_upload_type
          | .hStr "url" =>
            if isHttpUri then
              (if v.allow_remote_file_urls then .hStr "url" else .hStr v.default_upload_type)
            else .hStr "url"
          | tv => tv
        let p := hAlloc st [("data", .hStr dataVal2), ("type", typeVal)]
        let st1 := p.1
        let rr := p.2
        let st2 :=
          if hTruthy st1 (dGetD d "name" .hNone) then hWrite st1 rr "name" (dGetD d "name" .hNone)
          else st1
        let st3 :=
          if hTruthy st2 (hOr st2 (dGetD d "mime" .hNone) (dGetD d "mimetype" .hNone)) then
            hWrite st2 rr "mime" (hOr st2 (dGetD d "mime" .hNone) (dGetD d "mimetype" .hNone))
          else st2
        (st3, some rr)
    | _ => (st, none)
  | _ => (st, none)

/-- Heap-level candidate loop (src/flowise.py lines 342-345 and 349-352):
normalize each candidate and keep the references of truthy results. -/
def normUploadListH (v : Valves) (st : Store) : List HVal → Store × List Nat
  | [] => (st, [])
  | u :: rest =>
    let p := normalizeUploadH v st u
    let emitted : List Nat :=
      match p.2 with
      | some rr => if (hRead p.1 rr).isEmpty then [] else [rr]
      | none => []
    let q := normUploadListH v p.1 rest
    (q.1, emitted ++ q.2)

/-- Python `x == "lit"` for a heap value against a string literal. -/
def hvEqStr : HVal → String → Bool
  | .hStr s, t => s == t
  | _, _ => false

/-- The `image_url` inline-content branch at heap level (src/flowise.py
lines 363-383): allocate the fresh candidate dict, normalize it, then
assign `name`/`mime` on the freshly normalized result only. -/
def imageUrlUploadsH (v : Valves) (st : Store) (idict : HDict) : Store × List Nat :=
  let imageUrl := dGetD idict "image_url" .hNone
  let urlVal : HVal :=
    match imageUrl with
    | .hRef ir => dGetD (hRead st ir) "url" .hNone
    | other => other
  match urlVal with
  | .hStr s =>
    let typeChoice : String :=
      if strHasPre "http://" s || strHasPre "https://" s then "url" else v.default_upload_type
    let p := hAlloc st [("data", .hStr s), ("type", .hStr typeChoice)]
    let q := normalizeUploadH v p.1 (.hRef p.2)
    match q.2 with
    | some nr =>
      let st3 :=
        if (dGet (hRead q.1 nr) "name").isSome then q.1
        else hWrite q.1 nr "name" (.hStr "image")
      let st4 :=
        if (dGet (hRead st3 nr) "mime").isNone && strHasPre "data:" s then
          hWrite st3 nr "mime" (.hStr ⟨beforeFirst ';' (afterFirst ':' s.data)⟩)
        else st3
      (st4, if (hRead st4 nr).isEmpty then [] else [nr])
    | none => (q.1, [])
  | _ => (st, [])

/-- Heap-level inline content item (src/flowise.py lines 355-383): dict
items tagged `file`/`input_file`/`data_url` are normalized directly, items
tagged `image_url` go through the image branch, everything else contributes
nothing. -/
def contentItemUploadsH (v : Valves) (st : Store) (item : HVal) : Store × List Nat :=
  match item with
  | .hRef r =>
    let idict := hRead st r
    let itemType := dGetD idict "type" .hNone
    if hvEqStr itemType "file" || hvEqStr itemType "input_file" || hvEqStr itemType "data_url" then
      let p := normalizeUploadH v st (.hRef r)
      let emitted : List Nat :=
        match p.2 with
        | some rr => if (hRead p.1 rr).isEmpty then [] else [rr]
        | none => []
      (p.1, emitted)
    else if hvEqStr itemType "image_url" then imageUrlUploadsH v st idict
    else (st, [])
  | _ => (st, [])

/-- Heap-level loop over a message's inline content items. -/
def contentItemListH (v : Valves) (st : Store) : List HVal → Store × List Nat
  | [] => (st, [])
  | i :: rest =>
    let p := contentItemUploadsH v st i
    let q := contentItemListH v p.1 rest
    (q.1, p.2 ++ q.2)

/-- A message's own `uploads` list at heap level (src/flowise.py lines
348-352). -/
def msgOwnUploadsH (v : Valves) (st : Store) (md : HDict) : Store × List Nat :=
  match dGet md "uploads" with
  | some (.hList us) => normUploadListH v st us
  | _ => (st, [])

/-- A message's inline content candidates at heap level (src/flowise.py
lines 353-383). -/
def msgContentUploadsH (v : Valves) (st : Store) (md : HDict) : Store × List Nat :=
  match dGet md "content" with
  | some (.hList items) => contentItemListH v st items
  | _ => (st, [])

/-- Heap-level per-message extraction (src/flowise.py lines 347-383): the
message's own `uploads` list, then its inline content items. -/
def messageUploadsH (v : Valves) (st : Store) (msg : HVal) : Store × List Nat :=
  match msg with
  | .hRef mr =>
    let p := msgOwnUploadsH v st (hRead st mr)
    let q := msgContentUploadsH v p.1 (hRead p.1 mr)
    (q.1, p.2 ++ q.2)
  | _ => (st, [])

/-- Heap-level loop over the message list. -/
def messageListH (v : Valves) (st : Store) : List HVal → Store × List Nat
  | [] => (st, [])
  | m :: rest =>
    let p := messageUploadsH v st m
    let q := messageListH v p.1 rest
    (q.1, p.2 ++ q.2)

/-- The request body's top-level `uploads` list at heap level
(src/flowise.py lines 340-345). -/
def topLevelUploadsH (v : Valves) (st : Store) (bodyRef : Nat) : Store × List Nat :=
  match dGet (hRead st bodyRef) "uploads" with
  | some (.hList us) => normUploadListH v st us
  | _ => (st, [])

/-- Heap-level `Pipe._extract_uploads` (src/flowise.py lines 301-385): the
request body's top-level `uploads`, then every message's candidates. -/
def extractUploadsH (v : Valves) (st : Store) (bodyRef : Nat) (messages : List HVal) :
    Store × List Nat :=
  let p := topLevelUploadsH v st bodyRef
  let q := messageListH v p.1 messages
  (q.1, p.2 ++ q.2)

/-- Frame relation on stores: the second store extends the first and agrees
with it on every address allocated in the first. -/
def StoreFrame (st st' : Store) : Prop :=
  st.length ≤ st'.length ∧ ∀ i, i < st.length → st'[i]? = st[i]?

theorem dGet_dSet_same {α : Type} (d : List (String × α)) (k : String) (v : α) :
    dGet (dSet d k v) k = some v := by
  induction d with
  | nil => simp [dGet, dSet]
  | cons hd tl ih =>
    obtain ⟨k2, v2⟩ := hd
    simp only [dSet, List.cons_append] at ih ⊢
    simp [dGet, ih]

theorem dGet_dSet_ne {α : Type} (d : List (String × α)) (k key : String) (v : α)
    (h : key ≠ k) : dGet (dSet d k v) key = dGet d key := by
  induction d with
  | nil => simp [dGet, dSet, Ne.symm h]
  | cons hd tl ih =>
    obtain ⟨k2, v2⟩ := hd
    simp only [dSet, List.cons_append] at ih ⊢
    simp [dGet, ih]

theorem truthy_lookup (d : PyDict) (k : String)
    (h : pyTruthy (dGetD d k .vNone) = true) :
    ∃ x, dGet d k = some x ∧ pyTruthy x = true := by
  unfold dGetD at h
  cases hx : dGet d k with
  | none => rw [hx] at h; simp [pyTruthy] at h
  | some x => rw [hx] at h; exact ⟨x, rfl, h⟩

theorem mem_listFlat {α β : Type} (f : α → List β) (l : List α) (b : β) :
    b ∈ listFlat f l ↔ ∃ a ∈ l, b ∈ f a := by
  induction l with
  | nil => simp [listFlat]
  | cons hd tl ih => simp [listFlat, ih]

theorem dataPre_excludes_http (s : String) (h : strHasPre "data:" s = true) :
    strHasPre "http://" s = false ∧ strHasPre "https://" s = false := by
  obtain ⟨cs⟩ := s
  match cs with
  | [] => exact absurd h (by decide)
  | c :: cs2 =>
    have h2 : (('d' == c) && listPre ['a', 't', 'a', ':'] cs2) = true := h
    have hc : 'd' = c := eq_of_beq ((Bool.and_eq_true _ _).mp h2).1
    cases hc
    exact ⟨rfl, rfl⟩

theorem dataWrap_not_http (mh s : String) :
    strHasPre "http://" ("data:" ++ mh ++ ";base64," ++ s) = false ∧
      strHasPre "https://" ("data:" ++ mh ++ ";base64," ++ s) = false := by
  obtain ⟨a⟩ := mh
  obtain ⟨b⟩ := s
  exact ⟨rfl, rfl⟩

theorem storeFrame_refl (st : Store) : StoreFrame st st :=
  ⟨le_refl _, fun _ _ => rfl⟩

theorem storeFrame_trans {a b c : Store} (h1 : StoreFrame a b) (h2 : StoreFrame b c) :
    StoreFrame a c :=
  ⟨le_trans h1.1 h2.1, fun i hi => (h2.2 i (lt_of_lt_of_le hi h1.1)).trans (h1.2 i hi)⟩

theorem storeFrame_alloc (st : Store) (d : HDict) : StoreFrame st (st ++ [d]) := by
  refine ⟨by simp, fun i hi => ?_⟩
  exact List.getElem?_append_left hi

theorem storeFrame_write {a b : Store} (h : StoreFrame a b) (r : Nat)
    (hr : a.length ≤ r) (k : String) (v : HVal) : StoreFrame a (hWrite b r k v) := by
  refine ⟨?_, fun i hi => ?_⟩
  · unfold hWrite; rw [List.length_set]; exact h.1
  · unfold hWrite
    rw [List.getElem?_set_ne (by omega)]
    exact h.2 i hi

theorem dGet_pair_data (x y : PyVal) : dGet [("data", x), ("type", y)] "data" = some x := rfl

theorem promoted_no_http (mval : PyVal) (s0 : String)
    (hhttp : (strHasPre "http://" s0 || strHasPre "https://" s0) = false) (c : Bool) :
    strHasPre "http://"
        (if c then
          match mval with
          | PyVal.vStr mh => if mh.data.contains '/' then "data:" ++ mh ++ ";base64," ++ s0 else s0
          | _ => s0
        else s0) = false ∧
      strHasPre "https://"
        (if c then
          match mval with
          | PyVal.vStr mh => if mh.data.contains '/' then "data:" ++ mh ++ ";base64," ++ s0 else s0
          | _ => s0
        else s0) = false := by
  have h1 : strHasPre "http://" s0 = false := by
    rcases Bool.or_eq_false_iff.mp hhttp with ⟨ha, _⟩; exact ha
  have h2 : strHasPre "https://" s0 = false := by
    rcases Bool.or_eq_false_iff.mp hhttp with ⟨_, hb⟩; exact hb
  cases c with
  | false => exact ⟨h1, h2⟩
  | true =>
    cases mval with
    | vStr mh =>
      by_cases hc : mh.data.contains '/' = true
      · simp only [hc, if_true]
        exact dataWrap_not_http mh s0
      · simp only [hc, if_false]
        exact ⟨h1, h2⟩
    | vNone => exact ⟨h1, h2⟩
    | vBool b => exact ⟨h1, h2⟩
    | vInt n => exact ⟨h1, h2⟩
    | vFloat fr => exact ⟨h1, h2⟩
    | vList l => exact ⟨h1, h2⟩
    | vDict e => exact ⟨h1, h2⟩

theorem normalizeUpload_no_http (v : Valves) (hv : v.allow_remote_file_urls = false)
    (u : PyVal) (r : PyDict) (s : String)
    (hn : normalizeUpload v u = some r)
    (hd : dGet r "data" = some (.vStr s)) :
    strHasPre "http://" s = false ∧ strHasPre "https://" s = false := by
  cases u with
  | vDict d =>
    rw [normalizeUpload] at hn
    rcases hch : uploadDataChain d with _ | b | n | fr | s0 | items | ents <;> rw [hch] at hn
    case vStr =>
      dsimp only at hn
      split at hn
      · exact Option.noConfusion hn
      · next hgate =>
        have hhttp : (strHasPre "http://" s0 || strHasPre "https://" s0) = false := by
          by_cases hdp : strHasPre "data:" s0 = true
          · obtain ⟨ha, hb⟩ := dataPre_excludes_http s0 hdp
            rw [ha, hb]; rfl
          · have hdp2 : strHasPre "data:" s0 = false := by
              revert hdp; cases strHasPre "data:" s0 <;> simp
            rw [hv, hdp2] at hgate
            simpa using hgate
        rw [Option.some_inj] at hn
        subst hn
        split at hd
        · rw [dGet_dSet_ne _ _ _ _ (by decide)] at hd
          split at hd
          · rw [dGet_dSet_ne _ _ _ _ (by decide)] at hd
            rw [dGet_pair_data, Option.some_inj] at hd
            injection hd with hd2
            subst hd2
            exact promoted_no_http _ s0 hhttp _
          · rw [dGet_pair_data, Option.some_inj] at hd
            injection hd with hd2
            subst hd2
            exact promoted_no_http _ s0 hhttp _
        · split at hd
          · rw [dGet_dSet_ne _ _ _ _ (by decide)] at hd
            rw [dGet_pair_data, Option.some_inj] at hd
            injection hd with hd2
            subst hd2
            exact promoted_no_http _ s0 hhttp _
          · rw [dGet_pair_data, Option.some_inj] at hd
            injection hd with hd2
            subst hd2
            exact promoted_no_http _ s0 hhttp _
    all_goals exact Option.noConfusion hn
  | vNone => exact Option.noConfusion hn
  | vBool b => exact Option.noConfusion hn
  | vInt n => exact Option.noConfusion hn
  | vFloat fr => exact Option.noConfusion hn
  | vStr s2 => exact Option.noConfusion hn
  | vList l => exact Option.noConfusion hn

theorem mem_ifEmpty {q a : PyDict} (h : a ∈ (if q.isEmpty then ([] : List PyDict) else [q])) :
    a = q := by
  split at h
  · exact absurd h (by simp)
  · rw [List.mem_singleton] at h
    exact h

theorem mem_emitNormalized {o : Option PyDict} {a : PyDict} (h : a ∈ emitNormalized o) :
    o = some a := by
  cases o with
  | none => exact absurd h (by simp [emitNormalized])
  | some r =>
    have hr : emitNormalized (some r) = if r.isEmpty then [] else [r] := rfl
    rw [hr] at h
    rw [mem_ifEmpty h]

theorem imageUrlUploads_no_http (v : Valves) (hv : v.allow_remote_file_urls = false)
    (item : PyDict) (a : PyDict) (s : String)
    (ha : a ∈ imageUrlUploads v item)
    (hd : dGet a "data" = some (.vStr s)) :
    strHasPre "http://" s = false ∧ strHasPre "https://" s = false := by
  unfold imageUrlUploads at ha
  dsimp only at ha
  split at ha
  next s1 hs1 =>
    split at ha
    next n heq =>
      have ha2 := mem_ifEmpty ha
      subst ha2
      split at hd <;> split at hd <;>
        first
        | exact normalizeUpload_no_http v hv _ n s heq hd
        | (rw [dGet_dSet_ne _ _ _ _ (by decide)] at hd
           exact normalizeUpload_no_http v hv _ n s heq hd)
        | (rw [dGet_dSet_ne _ _ _ _ (by decide)] at hd
           rw [dGet_dSet_ne _ _ _ _ (by decide)] at hd
           exact normalizeUpload_no_http v hv _ n s heq hd)
    next heq => exact absurd ha (by simp)
  next x hx => exact absurd ha (by simp)

theorem contentItemUploads_no_http (v : Valves) (hv : v.allow_remote_file_urls = false)
    (item : PyVal) (a : PyDict) (s : String)
    (ha : a ∈ contentItemUploads v item)
    (hd : dGet a "data" = some (.vStr s)) :
    strHasPre "http://" s = false ∧ strHasPre "https://" s = false := by
  cases item with
  | vDict idict =>
    unfold contentItemUploads at ha
    dsimp only at ha
    split at ha
    · exact normalizeUpload_no_http v hv _ a s (mem_emitNormalized ha) hd
    · split at ha
      · exact imageUrlUploads_no_http v hv idict a s ha hd
      · exact absurd ha (by simp)
  | vNone => exact absurd ha (by simp [contentItemUploads])
  | vBool b => exact absurd ha (by simp [contentItemUploads])
  | vInt n => exact absurd ha (by simp [contentItemUploads])
  | vFloat fr => exact absurd ha (by simp [contentItemUploads])
  | vStr s2 => exact absurd ha (by simp [contentItemUploads])
  | vList l => exact absurd ha (by simp [contentItemUploads])

theorem messageUploads_no_http (v : Valves) (hv : v.allow_remote_file_urls = false)
    (msg : PyVal) (a : PyDict) (s : String)
    (ha : a ∈ messageUploads v msg)
    (hd : dGet a "data" = some (.vStr s)) :
    strHasPre "http://" s = false ∧ strHasPre "https://" s = false := by
  cases msg with
  | vDict md =>
    unfold messageUploads at ha
    dsimp only at ha
    rcases List.mem_append.mp ha with h1 | h2
    · split at h1
      next us heq =>
        rw [mem_listFlat] at h1
        obtain ⟨u, _, hmem⟩ := h1
        exact normalizeUpload_no_http v hv u a s (mem_emitNormalized hmem) hd
      next => exact absurd h1 (by simp)
    · split at h2
      next items heq =>
        rw [mem_listFlat] at h2
        obtain ⟨it, _, hmem⟩ := h2
        exact contentItemUploads_no_http v hv it a s hmem hd
      next => exact absurd h2 (by simp)
  | vNone => exact absurd ha (by simp [messageUploads])
  | vBool b => exact absurd ha (by simp [messageUploads])
  | vInt n => exact absurd ha (by simp [messageUploads])
  | vFloat fr => exact absurd ha (by simp [messageUploads])
  | vStr s2 => exact absurd ha (by simp [messageUploads])
  | vList l => exact absurd ha (by simp [messageUploads])

/-- Claim C3: with the remote-URL valve disabled, no attachment returned by
upload extraction carries an `http://` or `https://` data value, whatever
the request body and message list contain. -/
theorem c3_no_remote_url_uploads_when_disabled
    (v : Valves) (body : PyDict) (messages : List PyVal)
    (hv : v.allow_remote_file_urls = false)
    (a : PyDict) (ha : a ∈ extractUploads v body messages)
    (s : String) (hd : dGet a "data" = some (.vStr s)) :
    strHasPre "http://" s = false ∧ strHasPre "https://" s = false := by
  unfold extractUploads at ha
  dsimp only at ha
  rcases List.mem_append.mp ha with h1 | h2
  · split at h1
    next us heq =>
      rw [mem_listFlat] at h1
      obtain ⟨u, _, hmem⟩ := h1
      exact normalizeUpload_no_http v hv u a s (mem_emitNormalized hmem) hd
    next => exact absurd h1 (by simp)
  · rw [mem_listFlat] at h2
    obtain ⟨m, _, hmem⟩ := h2
    exact messageUploads_no_http v hv m a s hmem hd

/-- Claim C6, counterexample: a candidate whose data value is an opaque
string (not a data URI, not http(s)) and which carries **no** MIME hint is
NOT dropped, contrary to the claim — `normalize_upload` emits it with the
opaque data value unchanged, and `extract_uploads` returns it. -/
theorem c6_counterexample :
    uploadDataChain [("data", PyVal.vStr "abc")] = .vStr "abc" ∧
    strHasPre "data:" "abc" = false ∧
    strHasPre "http://" "abc" = false ∧
    strHasPre "https://" "abc" = false ∧
    dGet [("data", PyVal.vStr "abc")] "mime" = none ∧
    dGet [("data", PyVal.vStr "abc")] "mimetype" = none ∧
    normalizeUpload testValves (.vDict [("data", PyVal.vStr "abc")]) =
      some [("data", PyVal.vStr "abc"), ("type", PyVal.vStr "file:full")] ∧
    extractUploads testValves [("uploads", PyVal.vList [.vDict [("data", PyVal.vStr "abc")]])] [] =
      [[("data", PyVal.vStr "abc"), ("type", PyVal.vStr "file:full")]] :=
  ⟨rfl, rfl, rfl, rfl, rfl, rfl, rfl, rfl⟩

/-- Claim C6 (amended): a candidate whose data value is an opaque string is
always emitted; its data value is promoted to a data URI exactly when a
slash-containing string MIME hint accompanies it, and is otherwise carried
through unchanged (not dropped). -/
theorem c6_opaque_data_promotion (v : Valves) (d : PyDict) (s : String)
    (hchain : uploadDataChain d = .vStr s)
    (hd1 : strHasPre "data:" s = false)
    (hh1 : strHasPre "http://" s = false)
    (hh2 : strHasPre "https://" s = false) :
    ∃ r, normalizeUpload v (.vDict d) = some r ∧
      dGet r "data" = some (.vStr
        (match pyOr (dGetD d "mime" .vNone) (dGetD d "mimetype" .vNone) with
         | PyVal.vStr mh => if mh.data.contains '/' then "data:" ++ mh ++ ";base64," ++ s else s
         | _ => s)) := by
  rw [normalizeUpload, hchain]
  dsimp only
  rw [hd1, hh1, hh2]
  simp only [Bool.not_false, Bool.or_self, Bool.false_and, Bool.and_false, Bool.true_and,
    Bool.and_true, Bool.and_self, if_false, if_true]
  refine ⟨_, rfl, ?_⟩
  by_cases hm : pyTruthy (pyOr (dGetD d "mime" PyVal.vNone) (dGetD d "mimetype" PyVal.vNone)) = true
  · by_cases hn : pyTruthy (dGetD d "name" PyVal.vNone) = true
    · rw [if_pos hm, dGet_dSet_ne _ _ _ _ (by decide), if_pos hn,
        dGet_dSet_ne _ _ _ _ (by decide)]
      exact dGet_pair_data _ _
    · rw [if_pos hm, dGet_dSet_ne _ _ _ _ (by decide), if_neg hn]
      exact dGet_pair_data _ _
  · by_cases hn : pyTruthy (dGetD d "name" PyVal.vNone) = true
    · rw [if_neg hm, if_pos hn, dGet_dSet_ne _ _ _ _ (by decide)]
      exact dGet_pair_data _ _
    · rw [if_neg hm, if_neg hn]
      exact dGet_pair_data _ _

/-- Witness for the amended claim C6 at a concrete candidate: opaque data
`abc` with MIME hint `image/png` is emitted, promoted to a data URI. -/
theorem c6_opaque_data_promotion_witness :
    ∃ r, normalizeUpload testValves
        (.vDict [("data", PyVal.vStr "abc"), ("mime", PyVal.vStr "image/png")]) = some r ∧
      dGet r "data" = some (.vStr
        (match pyOr
            (dGetD [("data", PyVal.vStr "abc"), ("mime", PyVal.vStr "image/png")] "mime" .vNone)
            (dGetD [("data", PyVal.vStr "abc"), ("mime", PyVal.vStr "image/png")] "mimetype" .vNone) with
         | PyVal.vStr mh => if mh.data.contains '/' then "data:" ++ mh ++ ";base64," ++ "abc" else "abc"
         | _ => "abc")) :=
  c6_opaque_data_promotion testValves
    [("data", PyVal.vStr "abc"), ("mime", PyVal.vStr "image/png")] "abc" rfl rfl rfl rfl

theorem procItem_fragment_single (item : PyVal) :
    ((procItem item).map pyStr).filter (fun s => s != "") =
      (if amendedPartFragment item != "" then [amendedPartFragment item] else []) := by
  cases item with
  | vDict d =>
    unfold procItem amendedPartFragment
    dsimp only
    by_cases h1 : pvEqStr (dGetD d "type" .vNone) "text" = true
    · rw [if_pos h1, if_pos h1]
      simp [List.filter_cons]
    · rw [if_neg h1, if_neg h1]
      by_cases h2 : pvEqStr (dGetD d "type" .vNone) "image_url" = true
      · rw [if_pos h2, if_pos h2]
        simp [List.filter_cons, pyStr]
      · rw [if_neg h2, if_neg h2]
        simp
  | vNone => simp [procItem, amendedPartFragment, List.filter_cons, pyStr, pyRepr]
  | vBool b => cases b <;> simp [procItem, amendedPartFragment, List.filter_cons, pyStr, pyRepr]
  | vInt n => simp [procItem, amendedPartFragment, List.filter_cons, pyStr, pyRepr]
  | vFloat fr => simp [procItem, amendedPartFragment, List.filter_cons, pyStr, pyRepr]
  | vStr s => simp [procItem, amendedPartFragment, List.filter_cons, pyStr, pyRepr]
  | vList l => simp [procItem, amendedPartFragment, List.filter_cons, pyStr, pyRepr]

theorem procItem_fragments (parts : List PyVal) :
    ((listFlat procItem parts).map pyStr).filter (fun s => s != "") =
      (parts.map amendedPartFragment).filter (fun s => s != "") := by
  induction parts with
  | nil => rfl
  | cons hd tl ih =>
    show ((procItem hd ++ listFlat procItem tl).map pyStr).filter (fun s => s != "") = _
    rw [List.map_append, List.filter_append, ih, List.map_cons, List.filter_cons,
      procItem_fragment_single]
    split
    · rw [List.singleton_append]
    · rw [List.nil_append]

/-- Claim C5, counterexample: an unrecognized dict part (here tagged `file`)
contributes nothing to the flattened content, whereas the claim's reading
maps it to the fixed placeholder token. -/
theorem c5_counterexample :
    processMessageContent [("content", PyVal.vList [.vDict [("type", PyVal.vStr "file")]])] = "" ∧
    claimNormalizeParts [.vDict [("type", PyVal.vStr "file")]] = "[Image content]" ∧
    ("" : String) ≠ "[Image content]" :=
  ⟨rfl, rfl, by decide⟩

/-- Claim C5 (amended): for list content, normalization equals the blank-line
join of the non-empty amended fragments — `text` dict parts contribute their
text, `image_url` dict parts the fixed placeholder, **unrecognized dict
parts contribute nothing**, non-dict parts their string form; falsy (empty
or absent) content normalizes to the empty string. -/
theorem c5_normalize_parts_amended (md : PyDict) :
    (∀ parts, dGetD md "content" (.vStr "") = .vList parts →
       processMessageContent md = amendedNormalizeParts parts) ∧
    (pyTruthy (dGetD md "content" (.vStr "")) = false → processMessageContent md = "") := by
  constructor
  · intro parts h
    unfold processMessageContent amendedNormalizeParts
    rw [h]
    dsimp only
    rw [procItem_fragments]
  · intro h
    rcases hc : dGetD md "content" (.vStr "") with _ | b | n | fr | s | items | ents <;>
      rw [hc] at h <;> unfold processMessageContent <;> rw [hc]
    case vList =>
      simp only [pyTruthy, Bool.not_eq_false'] at h
      rw [List.isEmpty_iff] at h
      subst h
      rfl
    all_goals simp [h]

/-- Witness for the amended claim C5 at a concrete message: a text part, an
unrecognized `file` dict part and a bare string part flatten to the amended
join. -/
theorem c5_normalize_parts_amended_witness :
    processMessageContent
        [("content", PyVal.vList
          [.vDict [("type", PyVal.vStr "text"), ("text", PyVal.vStr "a")],
           .vDict [("type", PyVal.vStr "file")],
           PyVal.vStr "x"])] =
      amendedNormalizeParts
        [.vDict [("type", PyVal.vStr "text"), ("text", PyVal.vStr "a")],
         .vDict [("type", PyVal.vStr "file")],
         PyVal.vStr "x"] :=
  (c5_normalize_parts_amended _).1 _ rfl

/-- Claim C2: streaming decode of exactly the two token lines and the `end`
line yields the content sequence `Hel`, `lo` in order and dispatches exactly
one terminal (done = true) side-channel notification. -/
theorem c2_streaming_decode_three_lines :
    handleStreamingResponse true
        ["data: \x7b\"event\":\"token\",\"data\":\"Hel\"\x7d",
         "data: \x7b\"event\":\"token\",\"data\":\"lo\"\x7d",
         "data: \x7b\"event\":\"end\"\x7d"] =
      [.content (.vStr "Hel"), .content (.vStr "lo"),
       .notify "info" "✅ Response complete" true] ∧
    contentTexts (handleStreamingResponse true
        ["data: \x7b\"event\":\"token\",\"data\":\"Hel\"\x7d",
         "data: \x7b\"event\":\"token\",\"data\":\"lo\"\x7d",
         "data: \x7b\"event\":\"end\"\x7d"]) = [.vStr "Hel", .vStr "lo"] ∧
    terminalNotifyCount (handleStreamingResponse true
        ["data: \x7b\"event\":\"token\",\"data\":\"Hel\"\x7d",
         "data: \x7b\"event\":\"token\",\"data\":\"lo\"\x7d",
         "data: \x7b\"event\":\"end\"\x7d"]) = 1 :=
  ⟨rfl, rfl, rfl⟩

/-- Claim C9: a `data:`-prefixed line whose payload fails to parse as JSON
produces no output at all (no content, no notification), and decoding the
stream with that line is identical to decoding the stream without it. -/
theorem c9_unparseable_data_line_skipped (hasEmitter : Bool) (l : String) (rest : List String)
    (hpre : strHasPre "data:" (pyStrip l) = true)
    (hparse : jparse (pyStrip (strDropChars (pyStrip l) 5)) = none) :
    procLine hasEmitter l = [] ∧
    handleStreamingResponse hasEmitter (l :: rest) = handleStreamingResponse hasEmitter rest := by
  have hp : procLine hasEmitter l = [] := by
    unfold procLine
    by_cases hline : pyStrip l = ""
    · rw [hline] at hpre
      exact absurd hpre (by decide)
    · rw [if_neg hline, if_pos hpre]
      dsimp only
      by_cases hjd : pyStrip (strDropChars (pyStrip l) 5) = ""
      · rw [if_pos hjd]
      · rw [if_neg hjd, hparse]
  refine ⟨hp, ?_⟩
  unfold handleStreamingResponse
  rw [show listFlat (procLine hasEmitter) (l :: rest) =
        procLine hasEmitter l ++ listFlat (procLine hasEmitter) rest from rfl,
    hp, List.nil_append]

/-- Witness for claim C9: the single line `data: not-json` is skipped and
the stream continues with the following token line. -/
theorem c9_unparseable_data_line_skipped_witness :
    procLine true "data: not-json" = [] ∧
    handleStreamingResponse true
        ["data: not-json", "data: \x7b\"event\":\"token\",\"data\":\"Hi\"\x7d"] =
      handleStreamingResponse true ["data: \x7b\"event\":\"token\",\"data\":\"Hi\"\x7d"] :=
  c9_unparseable_data_line_skipped true "data: not-json"
    ["data: \x7b\"event\":\"token\",\"data\":\"Hi\"\x7d"] rfl rfl

/-- Claim C8: non-streaming decode returns the `text` field of the parsed
object (`ok` for the first body), and returns empty text for any parsed
object without a `text` field — no fallback field scanning. -/
theorem c8_nonstreaming_strict_text_field :
    decodeNonStreaming "\x7b\"text\":\"ok\"\x7d" = .vStr "ok" ∧
    decodeNonStreaming "\x7b\"message\":\"ok\"\x7d" = .vStr "" ∧
    ∀ d : PyDict, dGet d "text" = none → decodeParsedResponse (.vDict d) = .vStr "" := by
  refine ⟨rfl, rfl, fun d h => ?_⟩
  unfold decodeParsedResponse
  dsimp only
  rw [h]

/-- Witness for claim C8: the parsed object with only a `message` field
decodes to empty text. -/
theorem c8_nonstreaming_strict_text_field_witness :
    decodeParsedResponse (.vDict [("message", PyVal.vStr "ok")]) = .vStr "" :=
  c8_nonstreaming_strict_text_field.2.2 [("message", PyVal.vStr "ok")] rfl

/-- Claim C7: with the three-message conversation, history limit 10 and no
explicit body history, the built request has question `what now` and exactly
the two-turn history `userMessage hi`, `apiMessage hello` in order. -/
theorem c7_question_and_two_turn_history :
    ∃ req : PyDict,
      pipeBuild testValves
          [("model", PyVal.vStr "p.flow1"),
           ("messages", PyVal.vList
             [.vDict [("role", PyVal.vStr "user"), ("content", PyVal.vStr "hi")],
              .vDict [("role", PyVal.vStr "assistant"), ("content", PyVal.vStr "hello")],
              .vDict [("role", PyVal.vStr "user"), ("content", PyVal.vStr "what now")]])]
          none 0 = .ok ("flow1", req) ∧
      dGet req "question" = some (.vStr "what now") ∧
      dGet req "history" = some (.vList
        [.vDict [("role", PyVal.vStr "userMessage"), ("content", PyVal.vStr "hi")],
         .vDict [("role", PyVal.vStr "apiMessage"), ("content", PyVal.vStr "hello")]]) :=
  ⟨_, rfl, rfl, rfl⟩

theorem injectOverrideDefaults_sessionId (v : Valves) (uoc : PyDict) (dsid : PyVal) :
    ∃ sid, dGet (injectOverrideDefaults v uoc dsid) "sessionId" = some sid ∧
      dGetD (injectOverrideDefaults v uoc dsid) "sessionId" dsid = sid := by
  unfold injectOverrideDefaults
  dsimp only
  by_cases h : pyTruthy (dGetD uoc "sessionId" .vNone) = true
  · obtain ⟨x, hx, _⟩ := truthy_lookup uoc "sessionId" h
    rw [if_pos h]
    by_cases h2 : (dGet uoc "isOverrideHistory").isSome = true
    · rw [if_pos h2]
      exact ⟨x, hx, by unfold dGetD; rw [hx]; rfl⟩
    · rw [if_neg h2]
      have hx2 : dGet (dSet uoc "isOverrideHistory" (.vBool v.force_override_history))
          "sessionId" = some x := by
        rw [dGet_dSet_ne _ _ _ _ (by decide)]; exact hx
      exact ⟨x, hx2, by unfold dGetD; rw [hx2]; rfl⟩
  · rw [if_neg h]
    have hx : dGet (dSet uoc "sessionId" dsid) "sessionId" = some dsid := dGet_dSet_same _ _ _
    by_cases h2 : (dGet (dSet uoc "sessionId" dsid) "isOverrideHistory").isSome = true
    · rw [if_pos h2]
      exact ⟨dsid, hx, by unfold dGetD; rw [hx]; rfl⟩
    · rw [if_neg h2]
      have hx2 : dGet (dSet (dSet uoc "sessionId" dsid) "isOverrideHistory"
          (.vBool v.force_override_history)) "sessionId" = some dsid := by
        rw [dGet_dSet_ne _ _ _ _ (by decide)]; exact hx
      exact ⟨dsid, hx2, by unfold dGetD; rw [hx2]; rfl⟩

theorem dGet_requestData_override (q oc st cid h : PyVal) :
    dGet [("question", q), ("overrideConfig", oc), ("streaming", st),
      ("chatId", cid), ("history", h)] "overrideConfig" = some oc := rfl

theorem dGet_requestData_chatId (q oc st cid h : PyVal) :
    dGet [("question", q), ("overrideConfig", oc), ("streaming", st),
      ("chatId", cid), ("history", h)] "chatId" = some cid := rfl

/-- Claim C1: every successfully built prediction request carries an
`overrideConfig` dict whose `sessionId` entry is present and equal to the
request's top-level `chatId`, for every body, override block (primary key,
alias key, or neither; with or without a `sessionId` entry) and metadata. -/
theorem c1_chatId_equals_overrideConfig_sessionId (v : Valves) (body : PyDict)
    (md : Option PyDict) (now : Nat) (mid : String) (req : PyDict)
    (hok : pipeBuild v body md now = .ok (mid, req)) :
    ∃ oc sid, dGet req "overrideConfig" = some (.vDict oc) ∧
      dGet oc "sessionId" = some sid ∧ dGet req "chatId" = some sid := by
  unfold pipeBuild at hok
  split at hok
  · exact Except.noConfusion hok
  · split at hok
    next modelInfo hmi =>
      dsimp only at hok
      split at hok
      · exact Except.noConfusion hok
      · split at hok
        next msgs hms =>
          split at hok
          · exact Except.noConfusion hok
          next current hlast =>
            split at hok
            next cdv cd =>
              split at hok
              · exact Except.noConfusion hok
              · rw [Except.ok.injEq, Prod.mk.injEq] at hok
                obtain ⟨hmid, hreq⟩ := hok
                subst hreq
                obtain ⟨sid, hsid, hsid2⟩ :=
                  injectOverrideDefaults_sessionId v (userOverrideConfig body)
                    (defaultSessionId md now)
                rcases hup : extractUploads v body msgs with _ | ⟨u0, us⟩
                · refine ⟨resolveOverrideConfig v body (defaultSessionId md now), sid, ?_, ?_, ?_⟩
                  · exact dGet_requestData_override _ _ _ _ _
                  · exact hsid
                  · rw [dGet_requestData_chatId]
                    exact congrArg some hsid2
                · refine ⟨resolveOverrideConfig v body (defaultSessionId md now), sid, ?_, ?_, ?_⟩
                  · rw [dGet_dSet_ne _ _ _ _ (by decide)]
                    exact dGet_requestData_override _ _ _ _ _
                  · exact hsid
                  · rw [dGet_dSet_ne _ _ _ _ (by decide), dGet_requestData_chatId]
                    exact congrArg some hsid2
            next => exact Except.noConfusion hok
        next => exact Except.noConfusion hok
    next => exact Except.noConfusion hok

/-- Witness for claim C1 at a concrete single-message body with no override
block: the built request's `chatId` equals `overrideConfig.sessionId`. -/
theorem c1_chatId_equals_overrideConfig_sessionId_witness :
    ∃ oc sid,
      dGet [("question", PyVal.vStr "hi"),
        ("overrideConfig", PyVal.vDict
          [("sessionId", PyVal.vStr "session_0"), ("isOverrideHistory", PyVal.vBool true)]),
        ("streaming", PyVal.vBool true),
        ("chatId", PyVal.vStr "session_0"),
        ("history", PyVal.vList [])] "overrideConfig" = some (.vDict oc) ∧
      dGet oc "sessionId" = some sid ∧
      dGet [("question", PyVal.vStr "hi"),
        ("overrideConfig", PyVal.vDict
          [("sessionId", PyVal.vStr "session_0"), ("isOverrideHistory", PyVal.vBool true)]),
        ("streaming", PyVal.vBool true),
        ("chatId", PyVal.vStr "session_0"),
        ("history", PyVal.vList [])] "chatId" = some sid :=
  c1_chatId_equals_overrideConfig_sessionId testValves
    [("messages", PyVal.vList [.vDict [("role", PyVal.vStr "user"), ("content", PyVal.vStr "hi")]])]
    none 0 "" _ rfl

theorem pipeBuild_err_noMessages (v : Valves) (body : PyDict) (md : Option PyDict) (now : Nat)
    (mi : String)
    (hk : ¬(v.flowise_api_key = "" ∨ v.flowise_url = ""))
    (hmi : dGetD body "model" (.vStr "") = .vStr mi)
    (hms : dGetD body "messages" (.vList []) = .vList []) :
    pipeBuild v body md now = .error noMessagesError := by
  unfold pipeBuild
  rw [if_neg hk, hmi]
  dsimp only
  rw [hms]
  rfl

theorem pipeBuild_err_emptyContent (v : Valves) (body : PyDict) (md : Option PyDict) (now : Nat)
    (mi : String) (msgs : List PyVal) (cd : PyDict)
    (hk : ¬(v.flowise_api_key = "" ∨ v.flowise_url = ""))
    (hmi : dGetD body "model" (.vStr "") = .vStr mi)
    (hms : dGetD body "messages" (.vList []) = .vList msgs)
    (hlast : msgs.getLast? = some (.vDict cd))
    (hq : pyStrip (processMessageContent cd) = "") :
    pipeBuild v body md now = .error emptyContentError := by
  have hne : msgs ≠ [] := by
    intro e; rw [e] at hlast; simp at hlast
  have htr : pyTruthy (.vList msgs) = true := by
    simp [pyTruthy, hne]
  unfold pipeBuild
  rw [if_neg hk, hmi]
  dsimp only
  rw [hms, htr, if_neg (by decide : ¬ ((!true) = true))]
  dsimp only
  rw [hlast]
  dsimp only
  rw [if_pos hq]

theorem pipeBuild_ok_exists (v : Valves) (body : PyDict) (md : Option PyDict) (now : Nat)
    (mi : String) (msgs : List PyVal) (cd : PyDict)
    (hk : ¬(v.flowise_api_key = "" ∨ v.flowise_url = ""))
    (hmi : dGetD body "model" (.vStr "") = .vStr mi)
    (hms : dGetD body "messages" (.vList []) = .vList msgs)
    (hlast : msgs.getLast? = some (.vDict cd))
    (hq : ¬ pyStrip (processMessageContent cd) = "") :
    ∃ r, pipeBuild v body md now = .ok r := by
  have hne : msgs ≠ [] := by
    intro e; rw [e] at hlast; simp at hlast
  have htr : pyTruthy (.vList msgs) = true := by
    simp [pyTruthy, hne]
  unfold pipeBuild
  rw [if_neg hk, hmi]
  dsimp only
  rw [hms, htr, if_neg (by decide : ¬ ((!true) = true))]
  dsimp only
  rw [hlast]
  dsimp only
  rw [if_neg hq]
  exact ⟨_, rfl⟩

/-- Claim C4: under a valid configuration, a string-or-absent model entry
and a list of dict messages, request building returns a validation error
text upward (and, being total, raises nothing) exactly when the message list
is empty or the flattened current-message text is blank after trimming. -/
theorem c4_validation_error_exactly (v : Valves) (body : PyDict) (md : Option PyDict) (now : Nat)
    (msgs : List PyVal)
    (hk : v.flowise_api_key ≠ "") (hu : v.flowise_url ≠ "")
    (hmie : ∃ mi, dGetD body "model" (.vStr "") = .vStr mi)
    (hms : dGetD body "messages" (.vList []) = .vList msgs)
    (hdicts : ∀ m ∈ msgs, ∃ d2, m = .vDict d2) :
    isValidationError (pipeBuild v body md now) ↔
      (msgs = [] ∨ ∃ cd, msgs.getLast? = some (.vDict cd) ∧
        pyStrip (processMessageContent cd) = "") := by
  obtain ⟨mi, hmi⟩ := hmie
  have hk2 : ¬(v.flowise_api_key = "" ∨ v.flowise_url = "") := by
    push_neg
    exact ⟨hk, hu⟩
  constructor
  · intro hval
    by_contra hrhs
    push_neg at hrhs
    obtain ⟨hne, hblank⟩ := hrhs
    rcases hl : msgs.getLast? with _ | current
    · rw [List.getLast?_eq_none_iff] at hl
      exact hne hl
    · obtain ⟨cd, rfl⟩ := hdicts current (List.mem_of_getLast?_eq_some hl)
      have hq : ¬ pyStrip (processMessageContent cd) = "" := hblank cd hl
      obtain ⟨r, hr⟩ := pipeBuild_ok_exists v body md now mi msgs cd hk2 hmi hms hl hq
      rw [hr] at hval
      rcases hval with h | h <;> exact Except.noConfusion h
  · intro h
    rcases h with rfl | ⟨cd, hl, hq⟩
    · exact Or.inl (pipeBuild_err_noMessages v body md now mi hk2 hmi hms)
    · exact Or.inr (pipeBuild_err_emptyContent v body md now mi msgs cd hk2 hmi hms hl hq)

/-- Witness for claim C4: the single whitespace-only user message produces a
validation failure (and, via the same theorem applied the other way, so does
the empty message list). -/
theorem c4_validation_error_exactly_witness :
    isValidationError (pipeBuild testValves
        [("messages", PyVal.vList
          [.vDict [("role", PyVal.vStr "user"), ("content", PyVal.vStr "  ")]])]
        none 0) ∧
    isValidationError (pipeBuild testValves [] none 0) := by
  constructor
  · exact (c4_validation_error_exactly testValves
      [("messages", PyVal.vList
        [.vDict [("role", PyVal.vStr "user"), ("content", PyVal.vStr "  ")]])]
      none 0
      [.vDict [("role", PyVal.vStr "user"), ("content", PyVal.vStr "  ")]]
      (by decide) (by decide) ⟨"", rfl⟩ rfl
      (by intro m hm; rw [List.mem_singleton] at hm; subst hm; exact ⟨_, rfl⟩)).mpr
      (Or.inr ⟨[("role", PyVal.vStr "user"), ("content", PyVal.vStr "  ")], rfl, rfl⟩)
  · exact (c4_validation_error_exactly testValves [] none 0 []
      (by decide) (by decide) ⟨"", rfl⟩ rfl (by intro m hm; simp at hm)).mpr (Or.inl rfl)

theorem storeFrame_ite {a : Store} {c : Prop} [Decidable c] {s1 s2 : Store}
    (h1 : StoreFrame a s1) (h2 : StoreFrame a s2) : StoreFrame a (if c then s1 else s2) := by
  split
  · exact h1
  · exact h2

theorem normalizeUploadH_frame (v : Valves) (st : Store) (u : HVal) :
    StoreFrame st (normalizeUploadH v st u).1 ∧
      ∀ rr, (normalizeUploadH v st u).2 = some rr → st.length ≤ rr := by
  cases u with
  | hRef r =>
    unfold normalizeUploadH
    dsimp only
    split
    next s hs =>
      split
      · exact ⟨storeFrame_refl st, fun rr h => Option.noConfusion h⟩
      · simp only [hAlloc]
        constructor
        · apply storeFrame_ite
          · apply storeFrame_write
            · apply storeFrame_ite
              · exact storeFrame_write (storeFrame_alloc _ _) _ (le_refl _) _ _
              · exact storeFrame_alloc _ _
            · exact le_refl _
          · apply storeFrame_ite
            · exact storeFrame_write (storeFrame_alloc _ _) _ (le_refl _) _ _
            · exact storeFrame_alloc _ _
        · intro rr h
          rw [Option.some_inj] at h
          omega
    next => exact ⟨storeFrame_refl st, fun rr h => Option.noConfusion h⟩
  | hNone => exact ⟨storeFrame_refl st, fun rr h => Option.noConfusion h⟩
  | hBool b => exact ⟨storeFrame_refl st, fun rr h => Option.noConfusion h⟩
  | hInt n => exact ⟨storeFrame_refl st, fun rr h => Option.noConfusion h⟩
  | hFloat fr => exact ⟨storeFrame_refl st, fun rr h => Option.noConfusion h⟩
  | hStr s => exact ⟨storeFrame_refl st, fun rr h => Option.noConfusion h⟩
  | hList l => exact ⟨storeFrame_refl st, fun rr h => Option.noConfusion h⟩

theorem normUploadListH_frame (v : Valves) :
    ∀ (us : List HVal) (st : Store), StoreFrame st (normUploadListH v st us).1 := by
  intro us
  induction us with
  | nil => intro st; exact storeFrame_refl st
  | cons u rest ih =>
    intro st
    unfold normUploadListH
    dsimp only
    exact storeFrame_trans (normalizeUploadH_frame v st u).1 (ih _)

theorem imageUrlUploadsH_frame (v : Valves) (st : Store) (idict : HDict) :
    StoreFrame st (imageUrlUploadsH v st idict).1 := by
  unfold imageUrlUploadsH
  dsimp only
  split
  next s hs =>
    simp only [hAlloc]
    split
    next nr hnr =>
      have hle : st.length ≤ nr :=
        le_trans (by simp) ((normalizeUploadH_frame v _ _).2 nr hnr)
      apply storeFrame_ite
      · apply storeFrame_write
        · apply storeFrame_ite
          · exact storeFrame_trans (storeFrame_alloc _ _) (normalizeUploadH_frame v _ _).1
          · exact storeFrame_write
              (storeFrame_trans (storeFrame_alloc _ _) (normalizeUploadH_frame v _ _).1) _ hle _ _
        · exact hle
      · apply storeFrame_ite
        · exact storeFrame_trans (storeFrame_alloc _ _) (normalizeUploadH_frame v _ _).1
        · exact storeFrame_write
            (storeFrame_trans (storeFrame_alloc _ _) (normalizeUploadH_frame v _ _).1) _ hle _ _
    next hnr =>
      exact storeFrame_trans (storeFrame_alloc _ _) (normalizeUploadH_frame v _ _).1
  next => exact storeFrame_refl st

theorem contentItemUploadsH_frame (v : Valves) (st : Store) (item : HVal) :
    StoreFrame st (contentItemUploadsH v st item).1 := by
  cases item with
  | hRef r =>
    unfold contentItemUploadsH
    dsimp only
    split
    · exact (normalizeUploadH_frame v st _).1
    · split
      · exact imageUrlUploadsH_frame v st _
      · exact storeFrame_refl st
  | hNone => exact storeFrame_refl st
  | hBool b => exact storeFrame_refl st
  | hInt n => exact storeFrame_refl st
  | hFloat fr => exact storeFrame_refl st
  | hStr s => exact storeFrame_refl st
  | hList l => exact storeFrame_refl st

theorem contentItemListH_frame (v : Valves) :
    ∀ (items : List HVal) (st : Store), StoreFrame st (contentItemListH v st items).1 := by
  intro items
  induction items with
  | nil => intro st; exact storeFrame_refl st
  | cons i rest ih =>
    intro st
    unfold contentItemListH
    dsimp only
    exact storeFrame_trans (contentItemUploadsH_frame v st i) (ih _)

theorem msgOwnUploadsH_frame (v : Valves) (st : Store) (md : HDict) :
    StoreFrame st (msgOwnUploadsH v st md).1 := by
  unfold msgOwnUploadsH
  split
  · exact normUploadListH_frame v _ st
  · exact storeFrame_refl st

theorem msgContentUploadsH_frame (v : Valves) (st : Store) (md : HDict) :
    StoreFrame st (msgContentUploadsH v st md).1 := by
  unfold msgContentUploadsH
  split
  · exact contentItemListH_frame v _ st
  · exact storeFrame_refl st

theorem messageUploadsH_frame (v : Valves) (st : Store) (msg : HVal) :
    StoreFrame st (messageUploadsH v st msg).1 := by
  cases msg with
  | hRef mr =>
    unfold messageUploadsH
    dsimp only
    exact storeFrame_trans (msgOwnUploadsH_frame v st _) (msgContentUploadsH_frame v _ _)
  | hNone => exact storeFrame_refl st
  | hBool b => exact storeFrame_refl st
  | hInt n => exact storeFrame_refl st
  | hFloat fr => exact storeFrame_refl st
  | hStr s => exact storeFrame_refl st
  | hList l => exact storeFrame_refl st

theorem messageListH_frame (v : Valves) :
    ∀ (msgs : List HVal) (st : Store), StoreFrame st (messageListH v st msgs).1 := by
  intro msgs
  induction msgs with
  | nil => intro st; exact storeFrame_refl st
  | cons m rest ih =>
    intro st
    unfold messageListH
    dsimp only
    exact storeFrame_trans (messageUploadsH_frame v st m) (ih _)

theorem topLevelUploadsH_frame (v : Valves) (st : Store) (bodyRef : Nat) :
    StoreFrame st (topLevelUploadsH v st bodyRef).1 := by
  unfold topLevelUploadsH
  split
  · exact normUploadListH_frame v _ st
  · exact storeFrame_refl st

theorem extractUploadsH_frame (v : Valves) (st : Store) (bodyRef : Nat) (messages : List HVal) :
    StoreFrame st (extractUploadsH v st bodyRef messages).1 := by
  unfold extractUploadsH
  dsimp only
  exact storeFrame_trans (topLevelUploadsH_frame v st bodyRef) (messageListH_frame v messages _)

theorem overrideStepH_frame (v : Valves) (st : Store) (bodyRef : Nat) (defSess : HVal) :
    StoreFrame st (overrideStepH v st bodyRef defSess).1 := by
  unfold overrideStepH
  simp only [hAlloc]
  apply storeFrame_ite
  · apply storeFrame_ite
    · exact storeFrame_alloc _ _
    · exact storeFrame_write (storeFrame_alloc _ _) _ (le_refl _) _ _
  · apply storeFrame_write
    · apply storeFrame_ite
      · exact storeFrame_alloc _ _
      · exact storeFrame_write (storeFrame_alloc _ _) _ (le_refl _) _ _
    · exact le_refl _

/-- Claim C10: building the outbound request leaves every dict that existed
before the call — the caller's body, messages, override block and attachment
candidates — unchanged in the store: the override block is shallow-copied
into a fresh allocation before `sessionId`/`isOverrideHistory` are injected,
and upload extraction only allocates fresh attachment dicts and writes to
those. -/
theorem c10_request_building_frame (v : Valves) (st : Store) (bodyRef : Nat)
    (defSess : HVal) (messages : List HVal) (i : Nat) (hi : i < st.length) :
    ((extractUploadsH v (overrideStepH v st bodyRef defSess).1 bodyRef messages).1)[i]? =
      st[i]? := by
  have h1 := overrideStepH_frame v st bodyRef defSess
  have h2 := extractUploadsH_frame v (overrideStepH v st bodyRef defSess).1 bodyRef messages
  exact (storeFrame_trans h1 h2).2 i hi

/-- Witness for claim C10 at a concrete one-dict store: the caller's body
dict at address 0 is unchanged by override-config building and upload
extraction. -/
theorem c10_request_building_frame_witness :
    ((extractUploadsH testValves
        (overrideStepH testValves
          [[("overrideConfig", HVal.hStr "junk"), ("a", HVal.hStr "b")]] 0 .hNone).1
        0 []).1)[0]? =
      ([[("overrideConfig", HVal.hStr "junk"), ("a", HVal.hStr "b")]] : Store)[0]? :=
  c10_request_building_frame testValves
    [[("overrideConfig", HVal.hStr "junk"), ("a", HVal.hStr "b")]] 0 .hNone [] 0 (by decide)

/-- Witness for claim C3: with remote URLs disabled, the one attachment
extracted from a data-URI candidate has a non-remote data value. -/
theorem c3_no_remote_url_uploads_when_disabled_witness :
    strHasPre "http://" "data:text/plain;base64,QQ==" = false ∧
      strHasPre "https://" "data:text/plain;base64,QQ==" = false :=
  c3_no_remote_url_uploads_when_disabled testValves
    [("uploads", PyVal.vList [.vDict [("data", PyVal.vStr "data:text/plain;base64,QQ==")]])]
    [] rfl
    [("data", PyVal.vStr "data:text/plain;base64,QQ=="), ("type", PyVal.vStr "file:full")]
    (List.mem_singleton.mpr rfl)
    "data:text/plain;base64,QQ==" rfl
